import Mathlib

/-!
# Verification of the `@gibme/sql` unified SQL abstraction layer

A shallow embedding, in Lean 4, of the core of the `gibme-npm/sql`
repository: the statement synthesizer of the abstract `Database` base
class (`src/database.ts`, with the `SQLITE || LIBSQL` embedded-dialect
branch of the base-class variant that carries the `LIBSQL` engine tag,
see `src/types.ts`), the transaction orchestrator shared by the pooled
engines (`Postgres.transaction` / `MySQL.transaction`), the embedded
engine's write-serialization queue (`SQLiteInstance`), the singleton
instance manager (`SQLiteInstanceManager`), and the select/mutation
classification of the embedded adapters (`SQLite.query`,
`SQLiteInstance.query`, `LibSQL.query`).

Pure functions of the source become Lean functions; the effectful
orchestrators become functions of an explicit environment recording the
outcome of every driver primitive (begin / per-statement execute /
commit / rollback), returning the result together with the ordered list
of driver actions performed; the serializer queue becomes an explicit
state whose drain loop is a function from the queue to the ordered event
trace (statement execution start, completion callback).  Promise
settlement of a queued call is modelled by its callback event appearing
in the trace.  JavaScript's `toLowerCase`/`toUpperCase` are modelled by
`String.toLower`/`String.toUpper` (the SQL keywords involved are ASCII).
-/

namespace GibmeSql

/-- Engine type tag, from `src/types.ts` (`DatabaseType`): the MySQL family
(`MYSQL`, `MARIADB`), the network row store (`POSTGRES`) and the embedded
dialects (`SQLITE`, `LIBSQL`). -/
inductive DatabaseType where
  | MYSQL
  | POSTGRES
  | SQLITE
  | LIBSQL
  | MARIADB
  deriving DecidableEq, Repr

/-- A parameterized statement, from `src/types.ts` (`Query`): SQL text with
positional `?` placeholders, the bound values (over an arbitrary value type
`V`, since the source's values are `any[]`), and the optional
tolerate-failure flag `noError` used inside transactions. -/
structure Query (V : Type) where
  query : String
  values : List V := []
  noError : Bool := false
  deriving DecidableEq, Repr

/-- JavaScript `String.prototype.toLowerCase()` on the ASCII SQL text this
layer handles, as a structurally-reducing character map. -/
def strToLower (s : String) : String :=
  ⟨s.data.map Char.toLower⟩

/-- JavaScript `String.prototype.toUpperCase()` on ASCII SQL text. -/
def strToUpper (s : String) : String :=
  ⟨s.data.map Char.toUpper⟩

/-- JavaScript `String.prototype.startsWith(pre)`. -/
def strStartsWith (s pre : String) : Bool :=
  pre.data.isPrefixOf s.data

/-- JavaScript `String.prototype.trim()`: strips leading and trailing
whitespace. -/
def strTrim (s : String) : String :=
  ⟨((s.data.dropWhile Char.isWhitespace).reverse.dropWhile Char.isWhitespace).reverse⟩

/-- JavaScript `Array.prototype.join(sep)`, structurally recursive. -/
def joinSep (sep : String) : List String → String
  | [] => ""
  | [x] => x
  | x :: y :: rest => x ++ sep ++ joinSep sep (y :: rest)

/-- `arr.map(() => '?').join(',')`, the placeholder builder local to
`_prepareMultiInsert` in `src/database.ts`. -/
def toPlaceholders {α : Type} (arr : List α) : String :=
  joinSep "," (arr.map (fun _ => "?"))

/-- `Database._prepareMultiInsert` (`src/database.ts`), with the embedded
branch taken on both embedded dialects as in the `LIBSQL`-carrying variant
of the base class (`databaseType === DatabaseType.SQLITE || databaseType ===
DatabaseType.LIBSQL`).  Throwing `Error` is modelled by `Except.error` on
the error message.  The identifier escaper is a parameter, exactly as in
the `prepareMultiInsert(type, table, columns, values, escapeId)` helper
signature the per-engine adapters call. -/
def prepareMultiInsert {V : Type} (databaseType : DatabaseType) (table : String)
    (columns : List String) (values : List (List V)) (escapeId : String → String) :
    Except String (List (Query V)) :=
  if values.length = 0 then
    Except.error "Must supply values"
  else if columns.length ≠ 0 ∧ ∃ vs ∈ values, vs.length ≠ columns.length then
    Except.error "Column count does not match values count"
  else
    let cols := if columns.length ≠ 0 then
      " (" ++ joinSep "," (columns.map escapeId) ++ ")" else ""
    if databaseType = DatabaseType.SQLITE ∨ databaseType = DatabaseType.LIBSQL then
      Except.ok (values.map (fun vs =>
        { query := "INSERT INTO " ++ escapeId table ++ cols ++ " VALUES (" ++ toPlaceholders vs ++ ")"
          values := vs }))
    else
      let placeholder := if columns.length ≠ 0 then "(" ++ toPlaceholders columns ++ ")"
        else "(" ++ toPlaceholders (values.headD []) ++ ")"
      Except.ok [{
        query := strTrim ("INSERT INTO " ++ escapeId table ++ cols ++ " VALUES " ++
          joinSep "," (values.map (fun _ => placeholder)))
        values := values.flatten }]

/-- `Database._prepareMultiUpdate` (`src/database.ts`): validates the column
and primary-key lists, builds the multi-insert statements, then appends the
engine-specific upsert clause to each (`ON DUPLICATE KEY UPDATE` for the
MySQL family, `ON CONFLICT … DO UPDATE SET` otherwise); the `for … continue`
loop over columns skipping primary-key members is the `filter`/`map`. -/
def prepareMultiUpdate {V : Type} (databaseType : DatabaseType) (table : String)
    (primaryKey columns : List String) (values : List (List V)) (escapeId : String → String) :
    Except String (List (Query V)) :=
  if columns.length = 0 then
    Except.error "Must specify columns for multi-update"
  else if primaryKey.length = 0 then
    Except.error "Must specify primary key column(s) for multi-update"
  else
    match prepareMultiInsert databaseType table columns values escapeId with
    | Except.error e => Except.error e
    | Except.ok queries =>
      if databaseType = DatabaseType.MYSQL ∨ databaseType = DatabaseType.MARIADB then
        let updates := (columns.filter (fun c => !(primaryKey.contains c))).map
          (fun c => escapeId c ++ " = VALUES(" ++ escapeId c ++ ")")
        Except.ok (queries.map (fun q =>
          { q with query := q.query ++ " ON DUPLICATE KEY UPDATE " ++ joinSep "," updates }))
      else
        let updates := (columns.filter (fun c => !(primaryKey.contains c))).map
          (fun c => escapeId c ++ " = excluded." ++ escapeId c)
        Except.ok (queries.map (fun q =>
          { q with query := q.query ++ " ON CONFLICT (" ++
              joinSep "," (primaryKey.map escapeId) ++ ") DO UPDATE SET " ++
              joinSep "," updates }))

/-- The upsert clause as the spec describes it (§4.2 `buildMultiUpdate`):
MySQL-family engines get `ON DUPLICATE KEY UPDATE col = VALUES(col)` for
every column not in the primary key, all others get
`ON CONFLICT (pk…) DO UPDATE SET col = excluded.col` for every non-key
column.  Stated separately from `prepareMultiUpdate` so the theorem for C8
can compare the source against this description. -/
def specUpsertClause (databaseType : DatabaseType) (primaryKey columns : List String)
    (escapeId : String → String) : String :=
  if databaseType = DatabaseType.MYSQL ∨ databaseType = DatabaseType.MARIADB then
    " ON DUPLICATE KEY UPDATE " ++ joinSep ","
      ((columns.filter (fun c => !(primaryKey.contains c))).map
        (fun c => escapeId c ++ " = VALUES(" ++ escapeId c ++ ")"))
  else
    " ON CONFLICT (" ++ joinSep "," (primaryKey.map escapeId) ++
      ") DO UPDATE SET " ++ joinSep ","
      ((columns.filter (fun c => !(primaryKey.contains c))).map
        (fun c => escapeId c ++ " = excluded." ++ escapeId c))

/-- Index kind, from `src/types.ts` (`IndexType`). -/
inductive IndexType where
  | NONE
  | UNIQUE
  deriving DecidableEq, Repr

/-- The SQL text of an index kind (the enum's string value). -/
def IndexType.text : IndexType → String
  | IndexType.NONE => ""
  | IndexType.UNIQUE => "UNIQUE"

/-- Foreign-key referential action, from `src/types.ts`
(`ForeignKeyConstraint`). -/
inductive ForeignKeyConstraint where
  | RESTRICT
  | CASCADE
  | NULL
  | DEFAULT
  | NA
  deriving DecidableEq, Repr

/-- The SQL text of a referential action (the enum's string value). -/
def ForeignKeyConstraint.text : ForeignKeyConstraint → String
  | ForeignKeyConstraint.RESTRICT => "RESTRICT"
  | ForeignKeyConstraint.CASCADE => "CASCADE"
  | ForeignKeyConstraint.NULL => "SET NULL"
  | ForeignKeyConstraint.DEFAULT => "SET DEFAULT"
  | ForeignKeyConstraint.NA => "NO ACTION"

/-- A foreign-key description, from `src/types.ts` (`ForeignKey`). -/
structure ForeignKey where
  table : String
  column : String
  onUpdate : Option ForeignKeyConstraint := none
  onDelete : Option ForeignKeyConstraint := none
  deriving DecidableEq, Repr

/-- A column description, from `src/types.ts` (`Column`); the optional
default value ranges over the value type `V`. -/
structure Column (V : Type) where
  name : String
  type : String
  nullable : Bool := false
  foreignKey : Option ForeignKey := none
  unique : Bool := false
  default : Option V := none
  deriving DecidableEq, Repr

/-- One column clause of `Database._prepareColumns` (`src/database.ts`).
In the source the `.trim()` binds only to the final `DEFAULT ?` template
fragment, so a column without a default keeps its trailing space here (it
is removed later by the per-part trim in `_prepareCreateTable`). -/
def columnDefinition {V : Type} (escapeId : String → String) (c : Column V) : String :=
  escapeId c.name ++ " " ++ strToUpper c.type ++ " " ++
    (if !c.nullable then "NOT NULL" else "NULL") ++ " " ++
    strTrim (if c.default.isSome then "DEFAULT ?" else "")

/-- `Database._prepareColumns` (`src/database.ts`): the per-column clauses
and, in column order, the default values bound against the `DEFAULT ?`
placeholders. -/
def prepareColumns {V : Type} (escapeId : String → String) (fields : List (Column V)) :
    List String × List V :=
  (fields.map (columnDefinition escapeId), fields.filterMap (fun c => c.default))

/-- One constraint of `Database._prepareConstraints` (`src/database.ts`),
for a column carrying a foreign key; `none` otherwise. -/
def constraintFor {V : Type} (escapeId : String → String) (table : String) (c : Column V) :
    Option String :=
  match c.foreignKey with
  | none => none
  | some fk =>
    let name := strTrim c.name
    let fkTable := strTrim fk.table
    let fkColumn := strTrim fk.column
    let keyName := joinSep "_" ["fk", table, name, fkTable, fkColumn]
    let base := "CONSTRAINT " ++ keyName ++ " FOREIGN KEY (" ++ escapeId name ++
      ") REFERENCES " ++ escapeId fkTable ++ " (" ++ escapeId fkColumn ++ ")"
    let withDelete := match fk.onDelete with
      | none => base
      | some a => base ++ " ON DELETE " ++ a.text
    let withUpdate := match fk.onUpdate with
      | none => withDelete
      | some a => withDelete ++ " ON UPDATE " ++ a.text
    some (strTrim withUpdate)

/-- `Database._prepareConstraints` (`src/database.ts`). -/
def prepareConstraints {V : Type} (escapeId : String → String) (table : String)
    (fields : List (Column V)) : List String :=
  fields.filterMap (constraintFor escapeId (strTrim table))

/-- `Database._prepareCreateIndex` (`src/database.ts`): every engine but
MySQL supports `IF NOT EXISTS` on index creation; on MySQL the statement is
instead marked failure-tolerant (`noError`). -/
def prepareCreateIndex {V : Type} (databaseType : DatabaseType) (table : String)
    (fields : List String) (idxType : IndexType) (escapeId : String → String) : Query V :=
  let table := strTrim table
  let fields := fields.map strTrim
  let canIfNotExists : Bool := databaseType ≠ DatabaseType.MYSQL
  let ifNotExists := if canIfNotExists then " IF NOT EXISTS" else ""
  { query := "CREATE " ++ idxType.text ++ " INDEX" ++ ifNotExists ++ " " ++
      strToLower idxType.text ++ "_" ++ table ++ "_" ++ joinSep "_" fields ++
      " ON " ++ escapeId table ++ " (" ++ joinSep "," (fields.map escapeId) ++ ")"
    values := []
    noError := !canIfNotExists }

/-- `Database._prepareCreateIndexes` (`src/database.ts`): one index
statement per column flagged unique. -/
def prepareCreateIndexes {V : Type} (databaseType : DatabaseType) (table : String)
    (fields : List (Column V)) (idxType : IndexType) (escapeId : String → String) :
    List (Query V) :=
  (fields.filter (fun c => c.unique)).map
    (fun c => prepareCreateIndex databaseType (strTrim table) [c.name] idxType escapeId)

/-- `Database._prepareCreateTable` (`src/database.ts`): the CREATE TABLE
statement assembled from the non-empty parts (each trimmed, joined by one
space), carrying the column default values as its parameters, followed by
one CREATE UNIQUE INDEX statement per unique column. -/
def prepareCreateTable {V : Type} (databaseType : DatabaseType) (table : String)
    (columns : List (Column V)) (primaryKey : List String) (tableOptions : String)
    (escapeId : String → String) : List (Query V) :=
  let table := strTrim table
  let pk := primaryKey.map escapeId
  let fields := (prepareColumns escapeId columns).1
  let values := (prepareColumns escapeId columns).2
  let constraints := prepareConstraints escapeId table columns
  let primaryKeyClause := if pk.length ≠ 0 then
    ", PRIMARY KEY (" ++ joinSep ", " pk ++ ")" else ""
  let parts := ["CREATE TABLE IF NOT EXISTS", escapeId table, "(",
    joinSep ", " fields, primaryKeyClause,
    if constraints.length ≠ 0 then ", " ++ joinSep ", " constraints else "",
    ")", tableOptions]
  let query := strTrim (joinSep " " ((parts.filter (fun s => s.length != 0)).map strTrim))
  { query := query, values := values, noError := false } ::
    prepareCreateIndexes databaseType table columns IndexType.UNIQUE escapeId

/-- The CREATE TABLE text as the spec describes the empty-primary-key case
(§4.2: the inline PRIMARY KEY clause is "omitted entirely when empty"): the
assembled parts list holds no primary-key component at all.  Stated
separately from `prepareCreateTable` so the theorem for C9 can compare the
source against this description. -/
def specCreateTableQueryNoPk {V : Type} (table : String) (columns : List (Column V))
    (tableOptions : String) (escapeId : String → String) : String :=
  let table := strTrim table
  let fields := (prepareColumns escapeId columns).1
  let constraints := prepareConstraints escapeId table columns
  let parts := ["CREATE TABLE IF NOT EXISTS", escapeId table, "(",
    joinSep ", " fields,
    if constraints.length ≠ 0 then ", " ++ joinSep ", " constraints else "",
    ")", tableOptions]
  strTrim (joinSep " " ((parts.filter (fun s => s.length != 0)).map strTrim))


/-- A driver action the transaction orchestrator performs, in order: the
native BEGIN, execution of the i-th statement, COMMIT, ROLLBACK, and the
release of the borrowed connection. -/
inductive TxAction where
  | begin
  | exec (i : Nat)
  | commit
  | rollback
  | release
  deriving DecidableEq, Repr

/-- The outcomes of the driver primitives an orchestrator run encounters:
connection acquisition, BEGIN, the execution of the i-th statement (an
error models the driver rejecting it), COMMIT and ROLLBACK.  `E` is the
error type, `R` the per-statement result type. -/
structure TxEnv (E R : Type) where
  connR : Except E Unit
  beginR : Except E Unit
  execR : Nat → Except E R
  commitR : Except E Unit
  rollbackR : Except E Unit

/-- The statement loop shared by `Postgres.transaction`,
`MySQL.transaction` and `SQLiteInstance._transaction`: each statement is
executed in list order inside its own try/catch; a failure is swallowed
when the statement's `noError` flag is set and aborts the loop otherwise;
results of successful statements are collected in order.  Returns the
result together with the `exec` actions attempted (the i-th statement of
the list is numbered `start + i`). -/
def execLoop {E R V : Type} (env : TxEnv E R) (start : Nat) :
    List (Query V) → Except E (List R) × List TxAction
  | [] => (Except.ok [], [])
  | q :: rest =>
    match env.execR start with
    | Except.ok r =>
      let next := execLoop env (start + 1) rest
      (next.1.map (fun rs => r :: rs), TxAction.exec start :: next.2)
    | Except.error e =>
      if q.noError then
        let next := execLoop env (start + 1) rest
        (next.1, TxAction.exec start :: next.2)
      else
        (Except.error e, [TxAction.exec start])

/-- The try/catch core shared by the pooled orchestrators and
`SQLiteInstance._transaction`: BEGIN, the statement loop, COMMIT on
success; on any error escaping the try block, ROLLBACK runs and — exactly
as in the JavaScript `catch` block `await rollback(); throw error;` — an
error thrown by the rollback itself propagates in place of the caught
one. -/
def txCore {E R V : Type} (env : TxEnv E R) (qs : List (Query V)) :
    Except E (List R) × List TxAction :=
  match env.beginR with
  | Except.error e =>
    (match env.rollbackR with
     | Except.ok _ => Except.error e
     | Except.error e2 => Except.error e2, [TxAction.begin, TxAction.rollback])
  | Except.ok _ =>
    let run := execLoop env 0 qs
    match run.1 with
    | Except.error e =>
      (match env.rollbackR with
       | Except.ok _ => Except.error e
       | Except.error e2 => Except.error e2,
       TxAction.begin :: run.2 ++ [TxAction.rollback])
    | Except.ok rs =>
      match env.commitR with
      | Except.ok _ => (Except.ok rs, TxAction.begin :: run.2 ++ [TxAction.commit])
      | Except.error e =>
        (match env.rollbackR with
         | Except.ok _ => Except.error e
         | Except.error e2 => Except.error e2,
         TxAction.begin :: run.2 ++ [TxAction.commit, TxAction.rollback])

/-- `Postgres.transaction` / `MySQL.transaction` (`src/postgres.ts`,
MySQL adapter): acquire a connection from the pool (outside the try
block — an acquisition failure performs nothing else), run the try/catch
core, and release the connection in the `finally` block on every exit
path. -/
def transactionRun {E R V : Type} (env : TxEnv E R) (qs : List (Query V)) :
    Except E (List R) × List TxAction :=
  match env.connR with
  | Except.error e => (Except.error e, [])
  | Except.ok _ =>
    let core := txCore env qs
    (core.1, core.2 ++ [TxAction.release])

/-- `SQLiteInstance._transaction` (`src/sqlite_instance.ts`): the same
try/catch core, with BEGIN/COMMIT/ROLLBACK issued as plain statements
against the single file handle and no connection to release. -/
def sqliteInstanceTransaction {E R V : Type} (env : TxEnv E R) (qs : List (Query V)) :
    Except E (List R) × List TxAction :=
  txCore env qs

/-- A queue entry's discriminator, from `src/sqlite_instance.ts`
(`QueueEntryType`). -/
inductive QueueEntryType where
  | TRANSACTION
  | ALL
  | RUN
  deriving DecidableEq, Repr

/-- A statement-queue entry, from `src/sqlite_instance.ts` (`QueueEntry`):
the operation kind and its statement list (a single statement for
`ALL`/`RUN`).  Its completion callback is modelled by the `fire` event the
serializer trace records for the entry's queue position. -/
structure QueueEntry (V : Type) where
  type : QueueEntryType
  queries : List (Query V)
  deriving DecidableEq, Repr

/-- `query.toLowerCase().startsWith('select')`, the row-returning test of
`SQLiteInstance.query`, `SQLite.query` and `LibSQL.query`. -/
def isSelectText (sql : String) : Bool :=
  strStartsWith (strToLower sql) "select"

/-- The one queue entry a public `SQLiteInstance.query` call builds: an
`ALL` entry when the text starts (case-insensitively) with `select`, a
`RUN` entry otherwise, holding the single statement. -/
def queryEntry {V : Type} (sql : String) (values : List V) : QueueEntry V :=
  { type := if isSelectText sql then QueueEntryType.ALL else QueueEntryType.RUN
    queries := [{ query := sql, values := values }] }

/-- `SQLiteInstance.query`'s effect on the statement queue: exactly one
entry is pushed at the back. -/
def enqueueQuery {V : Type} (queue : List (QueueEntry V)) (sql : String)
    (values : List V) : List (QueueEntry V) :=
  queue ++ [queryEntry sql values]

/-- `SQLiteInstance.transaction`'s effect on the statement queue: exactly
one `TRANSACTION` entry carrying the whole statement list is pushed at the
back. -/
def enqueueTransaction {V : Type} (queue : List (QueueEntry V)) (qs : List (Query V)) :
    List (QueueEntry V) :=
  queue ++ [{ type := QueueEntryType.TRANSACTION, queries := qs }]

/-- An event of the serializer loop's trace: `start i` marks the loop
beginning to execute the entry at queue position `i` (after `shift`ing it),
`fire i` marks that entry's completion callback firing (which settles the
promise the public call returned). -/
inductive SerEvent where
  | start (i : Nat)
  | fire (i : Nat)
  deriving DecidableEq, Repr

/-- The trace of the drain loop of `SQLiteInstance`'s constructor over a
queue whose front entry sits at position `base`: entries are `shift`ed one
at a time from the front, each executed to completion (its callback fired)
before the next is touched. -/
def drainFrom {V : Type} (base : Nat) : List (QueueEntry V) → List SerEvent
  | [] => []
  | _ :: rest => SerEvent.start base :: SerEvent.fire base :: drainFrom (base + 1) rest

/-- The serializer trace over a whole queue. -/
def drain {V : Type} (queue : List (QueueEntry V)) : List SerEvent :=
  drainFrom 0 queue

/-- How many entries have started executing in a trace fragment. -/
def startsIn (es : List SerEvent) : Nat :=
  es.countP (fun e => match e with | SerEvent.start _ => true | _ => false)

/-- How many completion callbacks have fired in a trace fragment. -/
def firesIn (es : List SerEvent) : Nat :=
  es.countP (fun e => match e with | SerEvent.fire _ => true | _ => false)

/-- The mutable state of one `SQLiteInstance` (`src/sqlite_instance.ts`):
its statement queue, the `stopping` flag set by `close()`, and whether the
underlying file handle is still open. -/
structure InstanceState (V : Type) where
  statementQueue : List (QueueEntry V)
  stopping : Bool
  dbOpen : Bool
  deriving DecidableEq, Repr

/-- The events the drain loop still delivers from a state: the loop's
outer `while (!this.stopping)` guard means a state whose `stopping` flag
is set processes nothing further (the flag is never reset). -/
def loopEvents {V : Type} (s : InstanceState V) : List SerEvent :=
  if s.stopping then [] else drain s.statementQueue

/-- `SQLiteInstance.close()`: sets `stopping`, waits until the loop has
drained the remaining queue (those entries' events are the second
component), then closes the file handle. -/
def closeInstance {V : Type} (s : InstanceState V) : InstanceState V × List SerEvent :=
  ({ statementQueue := [], stopping := true, dbOpen := false }, drain s.statementQueue)

/-- A `query` call issued against an instance in state `s`: its entry is
pushed onto the statement queue unconditionally (the source checks no
closed flag). -/
def queryAfter {V : Type} (s : InstanceState V) (sql : String) (values : List V) :
    InstanceState V :=
  { s with statementQueue := s.statementQueue ++ [queryEntry sql values] }

/-- Whether the entry at queue position `i` ever settles (its callback
fires) given the state's remaining loop events. -/
def entrySettles {V : Type} (s : InstanceState V) (i : Nat) : Bool :=
  (loopEvents s).contains (SerEvent.fire i)

/-- The process-wide registry of `SQLiteInstanceManager`
(`src/sqlite_instance_manager.ts`): a map from digest ids to instances
(instances are identified by the numeric handle `nextHandle` assigned at
construction, which stands for the object's identity — its queue and open
file handle included). -/
structure ManagerState where
  instances : List (String × Nat)
  nextHandle : Nat
  deriving DecidableEq, Repr

/-- `SQLiteInstanceManager.get` (`src/sqlite_instance_manager.ts`): the
filename is resolved to an absolute path, the path digested to an id; an
instance already registered under that id is returned as-is, otherwise a
new instance is constructed and registered.  `resolvePath` models
`path.resolve(process.cwd(), …)` and `digestF` the sha512 hex digest —
both deterministic functions of the filename. -/
def managerGet (resolvePath digestF : String → String) (s : ManagerState)
    (filename : String) : ManagerState × Nat :=
  let id := digestF (resolvePath filename)
  match s.instances.lookup id with
  | some inst => (s, inst)
  | none =>
    ({ instances := (id, s.nextHandle) :: s.instances, nextHandle := s.nextHandle + 1 },
      s.nextHandle)

/-- Query-result metadata, from `src/types.ts` (`QueryMetaData`). -/
structure QueryMetaData where
  changedRows : Nat
  affectedRows : Nat
  insertId : Option Nat := none
  length : Nat
  deriving DecidableEq, Repr

/-- A query result, from `src/types.ts` (`QueryResult`): rows, metadata
and the originating statement. -/
structure QueryResult (R V : Type) where
  rows : List R
  meta : QueryMetaData
  stmt : Query V
  deriving DecidableEq, Repr

/-- What the sqlite3 driver reports for one statement: the rows an `all`
call would produce, and the `changes`/`lastID` a `run` call would
report. -/
structure SqliteDriver (Row : Type) where
  rows : List Row
  changes : Nat
  lastID : Nat

/-- The result `SQLiteInstance.query` delivers (`src/sqlite_instance.ts`):
a statement whose text starts with `select` goes through `_all` (rows, no
change counts, row count), every other statement through `_run` (no rows,
driver change counts, zero row count). -/
def sqliteQueryResult {Row V : Type} (drv : SqliteDriver Row) (sql : String)
    (values : List V) : QueryResult Row V :=
  if isSelectText sql then
    { rows := drv.rows
      meta := { changedRows := 0, affectedRows := 0, insertId := none
                length := drv.rows.length }
      stmt := { query := sql, values := values } }
  else
    { rows := []
      meta := { changedRows := drv.changes, affectedRows := drv.changes
                insertId := some drv.lastID, length := 0 }
      stmt := { query := sql, values := values } }

/-- What the libsql driver reports for one executed statement. -/
structure LibsqlResultSet (Row : Type) where
  rows : List Row
  rowsAffected : Nat

/-- The result `LibSQL.query` delivers (`src/libsql.ts`): the driver
executes every statement, but the adapter discards the returned rows and
reports zero row count unless the text starts with `select`. -/
def libsqlQueryResult {Row V : Type} (rs : LibsqlResultSet Row) (sql : String)
    (values : List V) : QueryResult Row V :=
  let isQuery := isSelectText sql
  { rows := if isQuery then rs.rows else []
    meta := { changedRows := if isQuery then 0 else rs.rowsAffected
              affectedRows := if isQuery then 0 else rs.rowsAffected
              insertId := none
              length := if isQuery then rs.rows.length else 0 }
    stmt := { query := sql, values := values } }


/-- C6: `prepareMultiInsert` (`buildMultiInsert`) raises a `ValidationError`
if and only if the row list is empty, or the column list is non-empty and
some row's length differs from the column list's length; in particular it
fails for empty rows on every engine type, and when no columns are supplied
no arity check is performed. -/
theorem C6_multiInsert_validation {V : Type} (databaseType : DatabaseType)
    (table : String) (columns : List String) (values : List (List V))
    (escapeId : String → String) :
    (∃ e, prepareMultiInsert databaseType table columns values escapeId = Except.error e) ↔
      (values = [] ∨ (columns ≠ [] ∧ ∃ vs ∈ values, vs.length ≠ columns.length)) := by
  unfold prepareMultiInsert
  split_ifs with h1 h2
  · simp only [List.length_eq_zero] at h1
    exact ⟨fun _ => Or.inl h1, fun _ => ⟨_, rfl⟩⟩
  · refine ⟨fun _ => Or.inr ⟨?_, h2.2⟩, fun _ => ⟨_, rfl⟩⟩
    simpa [← List.length_eq_zero] using h2.1
  all_goals
    simp only [exists_false, false_iff]
    intro h
    rcases h with h | ⟨hc, hvs⟩
    · exact h1 (by simp [h])
    · exact h2 ⟨by simpa [← List.length_eq_zero] using hc, hvs⟩

/-- C7: for every non-empty row list (that passes the arity check, so the
builder does not throw), `prepareMultiInsert` branches on engine type: the
embedded dialects (SQLite, LibSQL) get one parameterized INSERT per row,
each carrying exactly that row's values; every other dialect gets exactly
one INSERT carrying one VALUES placeholder group per row and the rows
flattened in order as its parameter list, with the column list omitted from
the SQL when the caller supplies no columns (the first row's arity then
defines the placeholder count per group). -/
theorem C7_multiInsert_encoding {V : Type} (databaseType : DatabaseType)
    (table : String) (columns : List String) (values : List (List V))
    (escapeId : String → String)
    (hne : values ≠ [])
    (harity : columns = [] ∨ ∀ vs ∈ values, vs.length = columns.length) :
    ((databaseType = DatabaseType.SQLITE ∨ databaseType = DatabaseType.LIBSQL) →
      prepareMultiInsert databaseType table columns values escapeId =
        Except.ok (values.map (fun vs =>
          { query := "INSERT INTO " ++ escapeId table ++
              (if columns = [] then ""
                else " (" ++ joinSep "," (columns.map escapeId) ++ ")") ++
              " VALUES (" ++ toPlaceholders vs ++ ")"
            values := vs
            noError := false }))) ∧
    (¬(databaseType = DatabaseType.SQLITE ∨ databaseType = DatabaseType.LIBSQL) →
      prepareMultiInsert databaseType table columns values escapeId =
        Except.ok [{
          query := strTrim ("INSERT INTO " ++ escapeId table ++
              (if columns = [] then ""
                else " (" ++ joinSep "," (columns.map escapeId) ++ ")") ++
              " VALUES " ++
              joinSep "," (List.replicate values.length
                (if columns = [] then "(" ++ toPlaceholders (values.headD []) ++ ")"
                  else "(" ++ toPlaceholders columns ++ ")")))
          values := values.flatten
          noError := false }]) := by
  have hlen : ¬ values.length = 0 := fun h => hne (List.length_eq_zero.mp h)
  have hchk : ¬ (columns.length ≠ 0 ∧ ∃ vs ∈ values, vs.length ≠ columns.length) := by
    rcases harity with h | h
    · simp [h]
    · rintro ⟨-, vs, hvs, hbad⟩
      exact hbad (h vs hvs)
  by_cases hc : columns = []
  · subst hc
    refine ⟨fun hdb => ?_, fun hdb => ?_⟩ <;>
      simp [prepareMultiInsert, hlen, hchk, hdb, List.map_const']
  · have hc' : columns.length ≠ 0 := by simpa [List.length_eq_zero] using hc
    have harity' : ∀ vs ∈ values, vs.length = columns.length := harity.resolve_left hc
    refine ⟨fun hdb => ?_, fun hdb => ?_⟩ <;>
      (simp [prepareMultiInsert, hlen, hchk, hdb, hc, hc', List.map_const'];
        exact harity')

/-- Witness for C7: at `table = "t"`, `columns = ["a"]`,
`rows = [[1], [2]]`, the embedded dialect yields two per-row INSERTs and
MySQL yields one two-group INSERT with the flattened parameters. -/
theorem C7_multiInsert_encoding_witness :
    prepareMultiInsert DatabaseType.SQLITE "t" ["a"] [[1], [2]] (fun s => s) =
      Except.ok [{ query := "INSERT INTO t (a) VALUES (?)", values := [1], noError := false },
        { query := "INSERT INTO t (a) VALUES (?)", values := [2], noError := false }] ∧
    prepareMultiInsert DatabaseType.MYSQL "t" ["a"] [[1], [2]] (fun s => s) =
      Except.ok
        [{ query := "INSERT INTO t (a) VALUES (?),(?)", values := [1, 2], noError := false }] := by
  have h1 := C7_multiInsert_encoding DatabaseType.SQLITE "t" ["a"] [[1], [2]]
    (fun s => s) (by decide) (Or.inr (by decide))
  have h2 := C7_multiInsert_encoding DatabaseType.MYSQL "t" ["a"] [[1], [2]]
    (fun s => s) (by decide) (Or.inr (by decide))
  exact ⟨(h1.1 (Or.inl rfl)).trans rfl, (h2.2 (by decide)).trans rfl⟩

/-- C8: for non-empty column and primary-key lists, `prepareMultiUpdate`
(`buildMultiUpdate`) returns exactly the statements of `prepareMultiInsert`
with the engine-specific upsert clause of `specUpsertClause` appended to
each (MySQL family: `ON DUPLICATE KEY UPDATE col = VALUES(col)` over the
non-key columns; all others: `ON CONFLICT (pk…) DO UPDATE SET
col = excluded.col`); an empty column or primary-key list raises a
`ValidationError` instead. -/
theorem C8_multiUpdate_upsert {V : Type} (databaseType : DatabaseType)
    (table : String) (primaryKey columns : List String) (values : List (List V))
    (escapeId : String → String) :
    (columns ≠ [] → primaryKey ≠ [] →
      prepareMultiUpdate databaseType table primaryKey columns values escapeId =
        Except.map (List.map (fun q =>
            { q with query := q.query ++ specUpsertClause databaseType primaryKey columns escapeId }))
          (prepareMultiInsert databaseType table columns values escapeId)) ∧
    ((columns = [] ∨ primaryKey = []) →
      ∃ e, prepareMultiUpdate databaseType table primaryKey columns values escapeId =
        Except.error e) := by
  constructor
  · intro hc hpk
    have hc' : ¬ columns.length = 0 := by simpa [List.length_eq_zero] using hc
    have hpk' : ¬ primaryKey.length = 0 := by simpa [List.length_eq_zero] using hpk
    unfold prepareMultiUpdate
    rw [if_neg hc', if_neg hpk']
    cases hmi : prepareMultiInsert databaseType table columns values escapeId with
    | error e => simp [Except.map]
    | ok queries =>
      by_cases hd : databaseType = DatabaseType.MYSQL ∨ databaseType = DatabaseType.MARIADB
      · simp [hd, specUpsertClause, Except.map, String.append_assoc]
      · simp [hd, specUpsertClause, Except.map, String.append_assoc]
  · intro h
    unfold prepareMultiUpdate
    by_cases hcol : columns.length = 0
    · rw [if_pos hcol]
      exact ⟨_, rfl⟩
    · rcases h with h | h
      · exact absurd (by simp [h]) hcol
      · rw [if_neg hcol, if_pos (by simp [h])]
        exact ⟨_, rfl⟩

/-- `dropWhile` over an append whose right part starts with a character
failing the predicate keeps the right part intact. -/
theorem dropWhile_append_stable {α : Type} (p : α → Bool) (pre rest : List α) (a : α)
    (rest' : List α) (hrest : rest = a :: rest') (ha : p a = false) :
    ∃ pre₂, (pre ++ rest).dropWhile p = pre₂ ++ rest := by
  induction pre with
  | nil => exact ⟨[], by simp [hrest, List.dropWhile_cons, ha]⟩
  | cons x xs ih =>
    by_cases hx : p x
    · simpa [List.dropWhile_cons, hx] using ih
    · exact ⟨x :: xs, by simp [List.dropWhile_cons, hx]⟩

/-- Trimming preserves an infix whose first and last characters are not
whitespace. -/
theorem strTrim_keeps_infix (s : String) (pat : List Char) (a b : Char)
    (pat' : List Char) (hpat : pat = a :: pat') (ha : a.isWhitespace = false)
    (hb : pat.getLast? = some b) (hbw : b.isWhitespace = false)
    (h : ∃ pre post : List Char, s.data = pre ++ pat ++ post) :
    ∃ pre post : List Char, (strTrim s).data = pre ++ pat ++ post := by
  obtain ⟨pre, post, hs⟩ := h
  obtain ⟨pre₂, h1⟩ := dropWhile_append_stable Char.isWhitespace pre (pat ++ post) a
    (pat' ++ post) (by simp [hpat]) ha
  have h1' : s.data.dropWhile Char.isWhitespace = pre₂ ++ (pat ++ post) := by
    rw [hs, List.append_assoc]; exact h1
  have hrevhead : ∃ t, pat.reverse = b :: t := by
    cases hrv : pat.reverse with
    | nil => simp [← List.head?_reverse, hrv] at hb
    | cons x t =>
      have hh : pat.reverse.head? = some b := by rw [List.head?_reverse]; exact hb
      rw [hrv] at hh
      simp only [List.head?_cons, Option.some.injEq] at hh
      exact ⟨t, by rw [hh]⟩
  obtain ⟨t, ht⟩ := hrevhead
  obtain ⟨q₂, h2⟩ := dropWhile_append_stable Char.isWhitespace post.reverse
    (pat.reverse ++ pre₂.reverse) b (t ++ pre₂.reverse) (by simp [ht]) hbw
  refine ⟨pre₂, q₂.reverse, ?_⟩
  show ((s.data.dropWhile Char.isWhitespace).reverse.dropWhile Char.isWhitespace).reverse =
    pre₂ ++ pat ++ q₂.reverse
  rw [h1']
  have hrw : (pre₂ ++ (pat ++ post)).reverse = post.reverse ++ (pat.reverse ++ pre₂.reverse) := by
    simp [List.reverse_append, List.append_assoc]
  rw [hrw, h2]
  simp [List.reverse_append, List.append_assoc]

/-- An element of a joined list is an infix of the join. -/
theorem joinSep_mem_infix (sep : String) (l : List String) (x : String) (hx : x ∈ l) :
    ∃ pre post : List Char, (joinSep sep l).data = pre ++ x.data ++ post := by
  induction l with
  | nil => cases hx
  | cons y ys ih =>
    cases ys with
    | nil =>
      have : x = y := by simpa using hx
      exact ⟨[], [], by simp [joinSep, this]⟩
    | cons z zs =>
      rcases List.mem_cons.mp hx with rfl | hmem
      · exact ⟨[], sep.data ++ (joinSep sep (z :: zs)).data, by
          simp [joinSep, String.data_append, List.append_assoc]⟩
      · obtain ⟨pre, post, hp⟩ := ih hmem
        exact ⟨y.data ++ sep.data ++ pre, post, by
          simp [joinSep, String.data_append, hp, List.append_assoc]⟩

/-- Trimming is the identity on a string whose first and last characters
are not whitespace (data-level form). -/
theorem strTrim_data_of_edges (s : String) (a b : Char) (s' : List Char)
    (hs : s.data = a :: s') (ha : a.isWhitespace = false)
    (hb : s.data.getLast? = some b) (hbw : b.isWhitespace = false) :
    (strTrim s).data = s.data := by
  have h1 : s.data.dropWhile Char.isWhitespace = s.data := by
    rw [hs, List.dropWhile_cons, ha]; simp
  have hrevhead : ∃ t, s.data.reverse = b :: t := by
    cases hrv : s.data.reverse with
    | nil => simp [← List.head?_reverse, hrv] at hb
    | cons x t =>
      have hh : s.data.reverse.head? = some b := by rw [List.head?_reverse]; exact hb
      rw [hrv] at hh
      exact ⟨t, by simpa using hh⟩
  obtain ⟨t, ht⟩ := hrevhead
  have h2 : s.data.reverse.dropWhile Char.isWhitespace = s.data.reverse := by
    rw [ht, List.dropWhile_cons, hbw]; simp
  show ((s.data.dropWhile Char.isWhitespace).reverse.dropWhile Char.isWhitespace).reverse = s.data
  rw [h1, h2, List.reverse_reverse]

/-- C9: `prepareCreateTable` emits its CREATE TABLE statement with an
inline PRIMARY KEY clause exactly when the supplied primary-key column
list is non-empty: with a non-empty list the emitted SQL contains the
clause `, PRIMARY KEY (pk…)` as an infix, and with an empty list the SQL
is identical to `specCreateTableQueryNoPk`, an assembly whose parts list
holds no primary-key component at all (a table with no primary key is a
legal result). -/
theorem C9_createTable_primary_key {V : Type} (databaseType : DatabaseType)
    (table : String) (columns : List (Column V)) (tableOptions : String)
    (escapeId : String → String) (primaryKey : List String) :
    (primaryKey = [] →
      prepareCreateTable databaseType table columns primaryKey tableOptions escapeId =
        { query := specCreateTableQueryNoPk table columns tableOptions escapeId
          values := (prepareColumns escapeId columns).2
          noError := false } ::
          prepareCreateIndexes databaseType (strTrim table) columns IndexType.UNIQUE escapeId) ∧
    (primaryKey ≠ [] →
      ∃ q rest, prepareCreateTable databaseType table columns primaryKey tableOptions escapeId =
          q :: rest ∧
        ∃ pre post : List Char, q.query.data =
          pre ++ (", PRIMARY KEY (" ++ joinSep ", " (primaryKey.map escapeId) ++ ")").data
            ++ post) := by
  constructor
  · intro hpk
    subst hpk
    simp only [prepareCreateTable, specCreateTableQueryNoPk, List.map_nil]
    rw [if_neg (by simp)]
    congr 3
  · intro hpk
    have hlen : (primaryKey.map escapeId).length ≠ 0 := by
      simpa [List.length_eq_zero] using hpk
    have hdata : (", PRIMARY KEY (" ++ joinSep ", " (primaryKey.map escapeId) ++ ")").data =
        ',' :: (" PRIMARY KEY (".data ++
          ((joinSep ", " (primaryKey.map escapeId)).data ++ [')'])) := by
      rw [String.data_append, String.data_append]
      rfl
    have hlast : (", PRIMARY KEY (" ++ joinSep ", " (primaryKey.map escapeId) ++ ")").data.getLast? =
        some ')' := by
      rw [String.data_append]
      exact List.getLast?_concat _
    have hclause_ne : ((", PRIMARY KEY (" ++ joinSep ", " (primaryKey.map escapeId) ++ ")").length
        != 0) = true := by
      have hne : (", PRIMARY KEY (" ++ joinSep ", " (primaryKey.map escapeId) ++ ")").data ≠ [] := by
        rw [hdata]; simp
      have hlne : (", PRIMARY KEY (" ++ joinSep ", " (primaryKey.map escapeId) ++ ")").data.length
          ≠ 0 := fun hz => hne (List.length_eq_zero.mp hz)
      exact bne_iff_ne.mpr hlne
    -- the clause survives the non-empty filter and the per-part trim
    have hmemparts : (", PRIMARY KEY (" ++ joinSep ", " (primaryKey.map escapeId) ++ ")") ∈
        (["CREATE TABLE IF NOT EXISTS", escapeId (strTrim table), "(",
        joinSep ", " (prepareColumns escapeId columns).1,
        ", PRIMARY KEY (" ++ joinSep ", " (primaryKey.map escapeId) ++ ")",
        if (prepareConstraints escapeId (strTrim table) columns).length ≠ 0 then
          ", " ++ joinSep ", " (prepareConstraints escapeId (strTrim table) columns) else "",
        ")", tableOptions].filter (fun s => s.length != 0)) := by
      refine List.mem_filter.mpr ⟨?_, hclause_ne⟩
      simp
    have hmem := List.mem_map_of_mem strTrim hmemparts
    obtain ⟨pre, post, hjoin⟩ := joinSep_mem_infix " " _
      (strTrim (", PRIMARY KEY (" ++ joinSep ", " (primaryKey.map escapeId) ++ ")")) hmem
    have htrimid : (strTrim (", PRIMARY KEY (" ++ joinSep ", " (primaryKey.map escapeId) ++ ")")).data =
        (", PRIMARY KEY (" ++ joinSep ", " (primaryKey.map escapeId) ++ ")").data :=
      strTrim_data_of_edges _ ',' ')' _ hdata (by decide) hlast (by decide)
    rw [htrimid] at hjoin
    simp only [prepareCreateTable]
    rw [if_pos hlen]
    refine ⟨_, _, rfl, ?_⟩
    exact strTrim_keeps_infix _ _ ',' ')' _ hdata (by decide) hlast (by decide)
      ⟨pre, post, hjoin⟩


/-- When every failing statement is failure-tolerant, the statement loop
succeeds, its results are the successful executions in order, and every
statement is attempted. -/
theorem execLoop_all_tolerated {E R V : Type} (env : TxEnv E R) (qs : List (Query V))
    (start : Nat)
    (h : ∀ i (hi : i < qs.length),
      (env.execR (start + i)).isOk = true ∨ (qs.get ⟨i, hi⟩).noError = true) :
    (execLoop env start qs).1 =
      Except.ok ((List.range' start qs.length).filterMap (fun j => (env.execR j).toOption)) ∧
    (execLoop env start qs).2 = (List.range' start qs.length).map TxAction.exec := by
  induction qs generalizing start with
  | nil => simp [execLoop]
  | cons q rest ih =>
    have hrest := ih (start + 1) (fun i hi => by
      have h' := h (i + 1) (by simpa using Nat.succ_lt_succ hi)
      have harith : start + 1 + i = start + (i + 1) := by omega
      rw [harith]
      simpa using h')
    rw [List.length_cons, List.range'_succ, List.filterMap_cons, List.map_cons]
    cases hx : env.execR start with
    | ok r =>
      simp only [execLoop, hx, Except.map, hrest.1, hrest.2, Except.toOption]
      constructor <;> trivial
    | error e =>
      have hq : q.noError = true := by
        have := h 0 (by simp)
        simpa [hx, Except.isOk, Except.toBool] using this
      simp only [execLoop, hx, hq, if_pos, hrest.1, hrest.2, Except.toOption]
      constructor <;> trivial

/-- When statements `0 … i-1` succeed and statement `i` fails without its
tolerate-failure flag, the statement loop aborts at `i` with that error,
having attempted exactly statements `start … start+i`. -/
theorem execLoop_first_failure {E R V : Type} (env : TxEnv E R) (qs : List (Query V))
    (start i : Nat) (e : E) (hi : i < qs.length)
    (hok : ∀ j, j < i → (env.execR (start + j)).isOk = true)
    (hne : (qs.get ⟨i, hi⟩).noError = false)
    (he : env.execR (start + i) = Except.error e) :
    (execLoop env start qs).1 = Except.error e ∧
    (execLoop env start qs).2 = (List.range' start (i + 1)).map TxAction.exec := by
  induction qs generalizing start i with
  | nil => exact absurd hi (by simp)
  | cons q rest ih =>
    cases i with
    | zero =>
      have hq : q.noError = false := hne
      simp only [execLoop, show env.execR start = Except.error e from by simpa using he, hq]
      simp [List.range'_succ]
    | succ k =>
      have h0 : (env.execR start).isOk = true := by simpa using hok 0 (Nat.succ_pos k)
      obtain ⟨r, hr⟩ : ∃ r, env.execR start = Except.ok r := by
        cases hx : env.execR start with
        | ok r => exact ⟨r, rfl⟩
        | error e2 => rw [hx] at h0; simp [Except.isOk, Except.toBool] at h0
      have hk := ih (start + 1) k (by simpa using hi)
        (fun j hj => by
          have h' := hok (j + 1) (Nat.succ_lt_succ hj)
          have harith : start + 1 + j = start + (j + 1) := by omega
          rw [harith]
          exact h')
        (by simpa using hne)
        (by
          have harith : start + 1 + k = start + (k + 1) := by omega
          rw [harith]
          exact he)
      simp only [execLoop, hr, hk.1, hk.2, Except.map]
      refine ⟨trivial, ?_⟩
      simp [List.range'_succ]

/-- C3: inside a transaction, a failing statement whose tolerate-failure
flag is set is skipped: the error is swallowed, execution continues, and
the returned results hold one entry per statement that did not
fail-and-tolerate (the output may be shorter than the input list, with no
positional marker for skipped entries).  Holds for the embedded engine's
`SQLiteInstance._transaction` and for the pooled orchestrator. -/
theorem C3_transaction_tolerated_failures {E R V : Type} (env : TxEnv E R)
    (qs : List (Query V))
    (h : ∀ i (hi : i < qs.length),
      (env.execR i).isOk = true ∨ (qs.get ⟨i, hi⟩).noError = true)
    (hb : env.beginR = Except.ok ())
    (hc : env.commitR = Except.ok ()) :
    (sqliteInstanceTransaction env qs).1 =
      Except.ok ((List.range qs.length).filterMap (fun j => (env.execR j).toOption)) ∧
    (env.connR = Except.ok () →
      (transactionRun env qs).1 =
        Except.ok ((List.range qs.length).filterMap (fun j => (env.execR j).toOption))) ∧
    ((List.range qs.length).filterMap (fun j => (env.execR j).toOption)).length ≤ qs.length := by
  have hloop := execLoop_all_tolerated env qs 0 (fun i hi => by simpa using h i hi)
  have hcore : (txCore env qs).1 =
      Except.ok ((List.range qs.length).filterMap (fun j => (env.execR j).toOption)) := by
    rw [List.range_eq_range']
    simp only [txCore, hb, hloop.1, hc]
  refine ⟨hcore, fun hconn => ?_, ?_⟩
  · simp only [transactionRun, hconn, hcore]
  · calc ((List.range qs.length).filterMap (fun j => (env.execR j).toOption)).length
        ≤ (List.range qs.length).length := List.length_filterMap_le _ _
      _ = qs.length := List.length_range qs.length

/-- Witness for C3: a three-statement transaction whose second statement
fails with `noError` set returns two results (skipping the tolerated
failure) on both the embedded and the pooled orchestrator. -/
theorem C3_transaction_tolerated_failures_witness :
    (sqliteInstanceTransaction
      { connR := Except.ok (), beginR := Except.ok ()
        execR := fun i => if i = 0 then Except.ok 10 else
          if i = 1 then Except.error "boom" else Except.ok 30
        commitR := Except.ok (), rollbackR := Except.ok () }
      [({ query := "a" } : Query Nat), { query := "b", noError := true },
        { query := "c" }]).1 = Except.ok [10, 30] ∧
    (transactionRun
      { connR := Except.ok (), beginR := Except.ok ()
        execR := fun i => if i = 0 then Except.ok 10 else
          if i = 1 then Except.error "boom" else Except.ok 30
        commitR := Except.ok (), rollbackR := Except.ok () }
      [({ query := "a" } : Query Nat), { query := "b", noError := true },
        { query := "c" }]).1 = Except.ok [10, 30] := by
  have h := C3_transaction_tolerated_failures
    (E := String) (R := Nat) (V := Nat)
    { connR := Except.ok (), beginR := Except.ok ()
      execR := fun i => if i = 0 then Except.ok 10 else
        if i = 1 then Except.error "boom" else Except.ok 30
      commitR := Except.ok (), rollbackR := Except.ok () }
    [{ query := "a" }, { query := "b", noError := true }, { query := "c" }]
    (by decide) rfl rfl
  exact ⟨h.1.trans rfl, (h.2.1 rfl).trans rfl⟩

/-- C2 (amended): when a statement with its tolerate-failure flag unset
fails mid-transaction, the orchestrator issues ROLLBACK; if the rollback
succeeds the original execution error is re-raised, but if the rollback
itself fails then the rollback's own error propagates in place of the
original one (the original error is masked, not surfaced); the borrowed
connection is released on every exit path. -/
theorem C2_transaction_rollback {E R V : Type} (env : TxEnv E R) (qs : List (Query V))
    (i : Nat) (e : E) (hi : i < qs.length)
    (hok : ∀ j, j < i → (env.execR j).isOk = true)
    (hne : (qs.get ⟨i, hi⟩).noError = false)
    (he : env.execR i = Except.error e)
    (hconn : env.connR = Except.ok ())
    (hb : env.beginR = Except.ok ()) :
    (env.rollbackR = Except.ok () → transactionRun env qs =
      (Except.error e, TxAction.begin :: ((List.range (i + 1)).map TxAction.exec ++
        [TxAction.rollback, TxAction.release]))) ∧
    (∀ e2, env.rollbackR = Except.error e2 → transactionRun env qs =
      (Except.error e2, TxAction.begin :: ((List.range (i + 1)).map TxAction.exec ++
        [TxAction.rollback, TxAction.release]))) ∧
    (∀ (env2 : TxEnv E R) (qs2 : List (Query V)), env2.connR = Except.ok () →
      (transactionRun env2 qs2).2.getLast? = some TxAction.release) := by
  have hloop := execLoop_first_failure env qs 0 i e hi
    (fun j hj => by simpa using hok j hj) hne (by simpa using he)
  have hrange : List.range' 0 (i + 1) = List.range (i + 1) :=
    (List.range_eq_range' (i + 1)).symm
  rw [hrange] at hloop
  refine ⟨fun hrb => ?_, fun e2 hrb => ?_, fun env2 qs2 hconn2 => ?_⟩
  · simp only [transactionRun, hconn, txCore, hb, hloop.1, hloop.2, hrb]
    simp
  · simp only [transactionRun, hconn, txCore, hb, hloop.1, hloop.2, hrb]
    simp
  · simp only [transactionRun, hconn2]
    exact List.getLast?_concat _

/-- Witness for C2: a one-statement transaction whose statement fails and
whose rollback succeeds returns the original error after BEGIN, the
statement attempt, ROLLBACK and the release of the connection. -/
theorem C2_transaction_rollback_witness :
    transactionRun
      ({ connR := Except.ok (), beginR := Except.ok ()
         execR := fun _ => Except.error "execution failed"
         commitR := Except.ok (), rollbackR := Except.ok () } : TxEnv String Nat)
      [({ query := "INSERT INTO t VALUES (1)" } : Query Nat)] =
      (Except.error "execution failed",
        [TxAction.begin, TxAction.exec 0, TxAction.rollback, TxAction.release]) := by
  have h := C2_transaction_rollback
    ({ connR := Except.ok (), beginR := Except.ok ()
       execR := fun _ => Except.error "execution failed"
       commitR := Except.ok (), rollbackR := Except.ok () } : TxEnv String Nat)
    [({ query := "INSERT INTO t VALUES (1)" } : Query Nat)]
    0 "execution failed" (by decide)
    (fun j hj => absurd hj (Nat.not_lt_zero j)) rfl rfl rfl rfl
  exact (h.1 rfl).trans rfl

/-- Counterexample to C2 as stated: with a failing statement (flag unset)
and a rollback that itself fails, the pooled orchestrator surfaces the
rollback's error, not the original execution error — the rollback failure
is not swallowed. -/
theorem C2_rollback_masking_counterexample :
    (transactionRun
      ({ connR := Except.ok (), beginR := Except.ok ()
         execR := fun _ => Except.error "execution failed"
         commitR := Except.ok (), rollbackR := Except.error "rollback failed" } :
         TxEnv String Nat)
      [({ query := "INSERT INTO t VALUES (1)" } : Query Nat)]).1 =
      Except.error "rollback failed" ∧
    (transactionRun
      ({ connR := Except.ok (), beginR := Except.ok ()
         execR := fun _ => Except.error "execution failed"
         commitR := Except.ok (), rollbackR := Except.error "rollback failed" } :
         TxEnv String Nat)
      [({ query := "INSERT INTO t VALUES (1)" } : Query Nat)]).1 ≠
      Except.error "execution failed" ∧
    (transactionRun
      ({ connR := Except.ok (), beginR := Except.ok ()
         execR := fun _ => Except.error "execution failed"
         commitR := Except.ok (), rollbackR := Except.error "rollback failed" } :
         TxEnv String Nat)
      [({ query := "INSERT INTO t VALUES (1)" } : Query Nat)]).2 =
      [TxAction.begin, TxAction.exec 0, TxAction.rollback, TxAction.release] := by
  refine ⟨rfl, ?_, rfl⟩
  intro h
  have h2 : ("rollback failed" : String) = "execution failed" := by
    have h' : (Except.error "rollback failed" : Except String (List Nat)) =
        Except.error "execution failed" := h
    injection h'
  exact absurd h2 (by decide)


/-- In the serializer trace, the entry at queue position `k` starts at
trace position `2k` and its callback fires at trace position `2k + 1`. -/
theorem drainFrom_getElem {V : Type} (queue : List (QueueEntry V)) (base k : Nat)
    (hk : k < queue.length) :
    (drainFrom base queue)[2 * k]? = some (SerEvent.start (base + k)) ∧
    (drainFrom base queue)[2 * k + 1]? = some (SerEvent.fire (base + k)) := by
  induction queue generalizing base k with
  | nil => exact absurd hk (by simp)
  | cons q rest ih =>
    cases k with
    | zero => simp [drainFrom]
    | succ m =>
      have hm := ih (base + 1) m (by simpa using hk)
      have e1 : 2 * (m + 1) = 2 * m + 1 + 1 := by ring
      have e2 : 2 * (m + 1) + 1 = 2 * m + 1 + 1 + 1 := by ring
      have e3 : base + 1 + m = base + (m + 1) := by omega
      constructor
      · show (SerEvent.start base :: SerEvent.fire base ::
          drainFrom (base + 1) rest)[2 * (m + 1)]? = _
        rw [e1, List.getElem?_cons_succ, List.getElem?_cons_succ, hm.1.trans (by rw [e3])]
      · show (SerEvent.start base :: SerEvent.fire base ::
          drainFrom (base + 1) rest)[2 * (m + 1) + 1]? = _
        rw [e2, List.getElem?_cons_succ, List.getElem?_cons_succ, hm.2.trans (by rw [e3])]

/-- Every prefix of the serializer trace has at most one more started
entry than fired callbacks: at most one statement or transaction is in
flight at any instant. -/
theorem drainFrom_inflight_bound {V : Type} (queue : List (QueueEntry V)) (base k : Nat) :
    startsIn ((drainFrom base queue).take k) ≤ firesIn ((drainFrom base queue).take k) + 1 := by
  induction queue generalizing base k with
  | nil => simp [drainFrom, startsIn, firesIn]
  | cons q rest ih =>
    cases k with
    | zero => simp [startsIn, firesIn]
    | succ k1 =>
      cases k1 with
      | zero => simp [drainFrom, startsIn, firesIn]
      | succ k2 =>
        have hk := ih (base + 1) k2
        simp only [drainFrom, List.take_succ_cons, startsIn, firesIn,
          List.countP_cons] at *
        omega

/-- C1: a public `query` or `transaction` call against the embedded engine
appends exactly one entry to the statement queue, and the serializer loop
consumes entries one at a time in FIFO append order: the callback of the
entry at position `i` fires strictly before the entry at a later position
`j` starts executing (so a promise settles only once its own entry has been
dequeued and run), and every trace prefix has at most one entry in
flight. -/
theorem C1_serializer_fifo {V : Type} (queue : List (QueueEntry V)) (sql : String)
    (values : List V) (qs : List (Query V)) (i j k : Nat) :
    enqueueQuery queue sql values = queue ++ [queryEntry sql values] ∧
    (enqueueQuery queue sql values).length = queue.length + 1 ∧
    enqueueTransaction queue qs =
      queue ++ [{ type := QueueEntryType.TRANSACTION, queries := qs }] ∧
    (enqueueTransaction queue qs).length = queue.length + 1 ∧
    (i < j → j < queue.length →
      (drain queue)[2 * i + 1]? = some (SerEvent.fire i) ∧
      (drain queue)[2 * j]? = some (SerEvent.start j) ∧
      2 * i + 1 < 2 * j) ∧
    startsIn ((drain queue).take k) ≤ firesIn ((drain queue).take k) + 1 := by
  refine ⟨rfl, by simp [enqueueQuery], rfl, by simp [enqueueTransaction],
    fun hij hj => ?_, drainFrom_inflight_bound queue 0 k⟩
  have hi : i < queue.length := lt_trans hij hj
  have h1 := (drainFrom_getElem queue 0 i hi).2
  have h2 := (drainFrom_getElem queue 0 j hj).1
  simp only [Nat.zero_add] at h1 h2
  exact ⟨h1, h2, by omega⟩

/-- C4 (amended): once an instance's `stopping` flag is set — which
`close()` does before it completes, never to be reset — a subsequently
issued `query` still appends its entry to the statement queue, but the
drain loop delivers no further events, so the entry is never executed and
its callback never fires: the call neither fails nor completes, it hangs
(no `ClosedError` exists anywhere in the source). -/
theorem C4_post_close_operations_hang {V : Type} (s0 : InstanceState V) (sql : String)
    (values : List V) (i : Nat) :
    ((closeInstance s0).1.stopping = true ∧ (closeInstance s0).1.statementQueue = [] ∧
      (closeInstance s0).1.dbOpen = false) ∧
    (∀ s : InstanceState V, s.stopping = true →
      (queryAfter s sql values).statementQueue = s.statementQueue ++ [queryEntry sql values] ∧
      loopEvents (queryAfter s sql values) = [] ∧
      entrySettles (queryAfter s sql values) i = false) := by
  refine ⟨⟨rfl, rfl, rfl⟩, fun s hs => ⟨rfl, ?_, ?_⟩⟩
  · simp [loopEvents, queryAfter, hs]
  · simp [entrySettles, loopEvents, queryAfter, hs]

/-- Counterexample to C4 as stated: against a freshly closed instance, a
`SELECT 1` query is enqueued (the queue is non-empty afterwards) yet the
loop delivers no events and the entry never settles — the operation does
not fail with a `ClosedError` (or any error); it hangs. -/
theorem C4_post_close_counterexample :
    (queryAfter (closeInstance ({ statementQueue := [], stopping := false, dbOpen := true } :
        InstanceState Nat)).1 "SELECT 1" []).statementQueue ≠ [] ∧
    loopEvents (queryAfter (closeInstance
      ({ statementQueue := [], stopping := false, dbOpen := true } :
        InstanceState Nat)).1 "SELECT 1" []) = [] ∧
    entrySettles (queryAfter (closeInstance
      ({ statementQueue := [], stopping := false, dbOpen := true } :
        InstanceState Nat)).1 "SELECT 1" []) 0 = false := by
  exact ⟨by decide, rfl, rfl⟩

/-- C5: two `SQLiteInstanceManager.get` calls whose filenames resolve to
the same absolute path return the identical instance (the same registered
handle, hence the same serialization queue and open file handle), and the
second call constructs nothing: the registry state is unchanged. -/
theorem C5_manager_canonical_instance (resolvePath digestF : String → String)
    (s : ManagerState) (f1 f2 : String) (h : resolvePath f1 = resolvePath f2) :
    (managerGet resolvePath digestF (managerGet resolvePath digestF s f1).1 f2).2 =
      (managerGet resolvePath digestF s f1).2 ∧
    (managerGet resolvePath digestF (managerGet resolvePath digestF s f1).1 f2).1 =
      (managerGet resolvePath digestF s f1).1 := by
  have hid : digestF (resolvePath f2) = digestF (resolvePath f1) := by rw [h]
  unfold managerGet
  simp only [hid]
  cases hl : s.instances.lookup (digestF (resolvePath f1)) with
  | some inst => simp [hl]
  | none => simp [hl, List.lookup]

/-- Witness for C5: `"db.sqlite3"` and `"./db.sqlite3"` resolving to the
same absolute path share one instance, and the second `get` leaves the
registry untouched. -/
theorem C5_manager_canonical_instance_witness :
    (managerGet (fun _ => "/home/app/db.sqlite3") (fun s => s)
        (managerGet (fun _ => "/home/app/db.sqlite3") (fun s => s)
          ({ instances := [], nextHandle := 0 } : ManagerState) "db.sqlite3").1
        "./db.sqlite3").2 =
      (managerGet (fun _ => "/home/app/db.sqlite3") (fun s => s)
        ({ instances := [], nextHandle := 0 } : ManagerState) "db.sqlite3").2 ∧
    (managerGet (fun _ => "/home/app/db.sqlite3") (fun s => s)
        (managerGet (fun _ => "/home/app/db.sqlite3") (fun s => s)
          ({ instances := [], nextHandle := 0 } : ManagerState) "db.sqlite3").1
        "./db.sqlite3").1 =
      (managerGet (fun _ => "/home/app/db.sqlite3") (fun s => s)
        ({ instances := [], nextHandle := 0 } : ManagerState) "db.sqlite3").1 :=
  C5_manager_canonical_instance (fun _ => "/home/app/db.sqlite3") (fun s => s)
    { instances := [], nextHandle := 0 } "db.sqlite3" "./db.sqlite3" rfl

/-- C10: the embedded adapters classify a statement as row-returning if
and only if its text begins, case-insensitively, with the literal prefix
`select` (the `ALL` queue path); any other statement — a `WITH`-prefixed
CTE or `INSERT … RETURNING` included — runs through the mutation path and
its result carries an empty row list and a zero row count, whatever rows
the driver produced. -/
theorem C10_select_classification {Row V : Type} (drv : SqliteDriver Row)
    (rs : LibsqlResultSet Row) (sql : String) (values : List V) :
    ((queryEntry (V := V) sql values).type = QueueEntryType.ALL ↔
      strStartsWith (strToLower sql) "select" = true) ∧
    (strStartsWith (strToLower sql) "select" = false →
      (sqliteQueryResult drv sql values).rows = [] ∧
      (sqliteQueryResult drv sql values).meta.length = 0 ∧
      (libsqlQueryResult rs sql values).rows = [] ∧
      (libsqlQueryResult rs sql values).meta.length = 0) ∧
    (strStartsWith (strToLower sql) "select" = true →
      (sqliteQueryResult drv sql values).rows = drv.rows ∧
      (libsqlQueryResult rs sql values).rows = rs.rows) ∧
    isSelectText "WITH cte AS (SELECT 1) SELECT * FROM cte" = false ∧
    isSelectText "INSERT INTO t (a) VALUES (1) RETURNING a" = false ∧
    isSelectText "SeLeCt * FROM t" = true := by
  refine ⟨?_, fun h => ?_, fun h => ?_, by decide, by decide, by decide⟩
  · unfold queryEntry isSelectText
    by_cases hx : strStartsWith (strToLower sql) "select" <;> simp [hx]
  · simp [sqliteQueryResult, libsqlQueryResult, isSelectText, h]
  · simp [sqliteQueryResult, libsqlQueryResult, isSelectText, h]

end GibmeSql
